import Mathlib

/-!
Shallow embedding of the daily transaction-ledger reconciliation engine
(`OnlineShopping_v2.py`): the record decoder (`Usable`), the batch loader
(`Execute`), the ledger table with its insert / retire writes, the per-batch
matching logic (`Main_logic`), and the per-day driver (`processOnlineshopping`).

Modelling conventions:
- A line of the fixed-width extract is a `String`; Python slicing `i[a:b]`
  is `pySlice`.
- The SQLite table `'Transaction'` is a `List Row` in rowid (insertion)
  order.  `Sequence INTEGER PRIMARY KEY` with no explicit value receives
  `max rowid + 1` (SQLite's rule for a non-AUTOINCREMENT integer primary
  key; the program never deletes rows), modelled by `maxSeq st + 1`.
- The `ACTIVE_IND` column holds the literal one-character strings
  `"Y"` / `"N"` exactly as the Python code writes them.
- `Final_data()` runs `SELECT * FROM 'Transaction'` with no `WHERE`
  clause, so it returns every row, active or not.
- The `UPDATE 'Transaction' SET ACTIVE_IND = 'N' WHERE Transaction_Id = …
  and Customer_Id = … and Product_Id = …` statement of the match branch
  filters by the three business-key columns, so it is modelled as
  `retireByKey`, acting on every row whose key equals the matched row's key.
- File I/O is abstracted: the loader takes the already-split list of lines
  (Python's `data.split('\n')` is total), and the driver takes the decoded
  batch.
-/

namespace OnlineShopping

/-- A decoded transaction record: the 13 named string fields built by
`Usable` (one dictionary per input line). -/
structure TransactionRecord where
  Transaction_Id : String
  Customer_Id : String
  Customer_Name : String
  Customer_Addr_Id : String
  Product_Id : String
  Product_Nm : String
  ProductPrice : String
  ProductQuantity : String
  Status : String
  Transaction_time_stamp : String
  Ordered_Date : String
  Shipment_Date : String
  Delivered_Date : String
  deriving DecidableEq, Repr

/-- One physical row of the `'Transaction'` table: auto-assigned `Sequence`,
the 13 record columns, and the `ACTIVE_IND` flag column (`"Y"` or `"N"`). -/
structure Row where
  Sequence : Nat
  record : TransactionRecord
  ACTIVE_IND : String
  deriving DecidableEq, Repr

/-- Python string slicing `i[a:b]` (for `a ≤ b`): drop the first `a`
characters, keep at most `b - a`; short strings give short results. -/
def pySlice (s : String) (a b : Nat) : String :=
  String.mk ((s.data.drop a).take (b - a))

/-- The body of `Usable`: one line is sliced into the 13 fixed-width fields,
at exactly the offsets of the source. -/
def Usable_record (i : String) : TransactionRecord :=
  { Transaction_Id := pySlice i 0 6
    Customer_Id := pySlice i 6 12
    Customer_Name := pySlice i 12 32
    Customer_Addr_Id := pySlice i 32 37
    Product_Id := pySlice i 37 44
    Product_Nm := pySlice i 44 74
    ProductPrice := pySlice i 74 80
    ProductQuantity := pySlice i 80 84
    Status := pySlice i 84 96
    Transaction_time_stamp := pySlice i 96 116
    Ordered_Date := pySlice i 116 127
    Shipment_Date := pySlice i 127 138
    Delivered_Date := pySlice i 138 149 }

/-- `Usable(data)`: decode every line of the (already loaded) extract. -/
def Usable (data : List String) : List TransactionRecord :=
  data.map Usable_record

/-- `Execute(file_name)` after the total `data.split('\n')` step: Python's
`data.remove('')` deletes the first `''` element and raises `ValueError`
when none is present, modelled as `none`. -/
def Execute (lines : List String) : Option (List String) :=
  if "" ∈ lines then some (lines.erase "") else none

/-- `Final_data()`: `SELECT * FROM 'Transaction'` — every row of the table,
in rowid order, with no filter on `ACTIVE_IND`. -/
def Final_data (st : List Row) : List Row :=
  st

/-- Largest `Sequence` present in the table (0 when empty); SQLite assigns
`maxSeq st + 1` to the next inserted row. -/
def maxSeq (st : List Row) : Nat :=
  st.foldr (fun r m => max r.Sequence m) 0

/-- `Insert(dctnry)`: set `ACTIVE_IND` to `'Y'` and append the row; the
`Sequence` primary key is auto-assigned as `maxSeq st + 1`. -/
def Insert (r : TransactionRecord) (st : List Row) : List Row :=
  st ++ [⟨maxSeq st + 1, r, "Y"⟩]

/-- The business key of a table row: its `(Transaction_Id, Customer_Id,
Product_Id)` column values. -/
def rowKey (j : Row) : String × String × String :=
  (j.record.Transaction_Id, j.record.Customer_Id, j.record.Product_Id)

/-- The business key of an incoming record. -/
def recKey (r : TransactionRecord) : String × String × String :=
  (r.Transaction_Id, r.Customer_Id, r.Product_Id)

/-- The match test of `Main_logic`'s inner loop: the snapshot row `j` and
the incoming record agree on the three business-key fields. -/
def keyMatchb (j : Row) (r : TransactionRecord) : Bool :=
  (j.record.Transaction_Id == r.Transaction_Id) &&
  (j.record.Customer_Id == r.Customer_Id) &&
  (j.record.Product_Id == r.Product_Id)

/-- The `UPDATE 'Transaction' SET ACTIVE_IND = 'N' WHERE Transaction_Id = …
and Customer_Id = … and Product_Id = …` statement: flip `ACTIVE_IND` to
`'N'` on every row whose business key equals `k`. -/
def retireByKey (k : String × String × String) (st : List Row) : List Row :=
  st.map (fun row => if rowKey row = k then { row with ACTIVE_IND := "N" } else row)

/-- One iteration of `Main_logic`'s outer loop: scan `final_data` in order
for the first business-key match (`break` after the first hit); on a hit,
run the retire `UPDATE` with the matched row's key values and then
`Insert`; otherwise (`flag == 0`) just `Insert`. -/
def Main_logic_step (final_data : List Row) (st : List Row) (r : TransactionRecord) : List Row :=
  match final_data.find? (fun j => keyMatchb j r) with
  | some j => Insert r (retireByKey (rowKey j) st)
  | none => Insert r st

/-- `Main_logic(lst, final_data)`: process each record of the batch in
order against the fixed start-of-batch snapshot `final_data`. -/
def Main_logic (lst : List TransactionRecord) (final_data : List Row) (st : List Row) : List Row :=
  lst.foldl (Main_logic_step final_data) st

/-- The `if file_name == 'Day1.txt'` branch of `processOnlineshopping`:
insert every record of the batch, with no lookup and no retire. -/
def baselineInsert (lst : List TransactionRecord) (st : List Row) : List Row :=
  lst.foldl (fun st0 r => Insert r st0) st

/-- `processOnlineshopping(file_name)` after loading and decoding: the
baseline path runs exactly when the file name is the literal `'Day1.txt'`;
any other name goes through `Final_data` + `Main_logic`. -/
def processBatch (file_name : String) (lst : List TransactionRecord) (st : List Row) : List Row :=
  if file_name = "Day1.txt" then baselineInsert lst st
  else Main_logic lst (Final_data st) st

/-- `processOnlineshopping(file_name)` including the load/decode steps:
`Execute` may fail (no blank line in the file), in which case the run
aborts before touching the table. -/
def processOnlineshopping (file_name : String) (lines : List String) (st : List Row) : Option (List Row) :=
  match Execute lines with
  | none => none
  | some data => some (processBatch file_name (Usable data) st)

/-- A whole lifetime of the ledger: successive daily runs (file name and
decoded batch) applied to the table created empty by `main()`. -/
def runBatches (days : List (String × List TransactionRecord)) (st : List Row) : List Row :=
  days.foldl (fun st0 d => processBatch d.1 d.2 st0) st

/-- Number of rows for business key `k` currently flagged active. -/
def activeForKey (k : String × String × String) (st : List Row) : Nat :=
  (st.filter (fun row => decide (rowKey row = k) && (row.ACTIVE_IND == "Y"))).length

/-- No row is lost going from table state `st` to table state `st2`: the
row count does not decrease, and every row of `st` is still present in
`st2`, identified by its `Sequence` and carrying the same record columns
(only `ACTIVE_IND` may have changed). -/
def rowsPreserved (st st2 : List Row) : Prop :=
  st.length ≤ st2.length ∧
  ∀ row ∈ st, ∃ row2 ∈ st2, row2.Sequence = row.Sequence ∧ row2.record = row.record

/-- Modelled from the spec wording of §4.1: the field at `[a:b]` of a line
is the sequence of those characters at positions `a, a+1, …, b-1` that
exist in the line (short lines yield short, possibly empty, fields). -/
def specSlice (s : String) (a b : Nat) : String :=
  String.mk ((List.range (b - a)).filterMap (fun k => s.data[a + k]?))

/-- Sample record: business key `(T00001, C00001, P000001)`. -/
def rec1 : TransactionRecord :=
  ⟨"T00001", "C00001", "Alice", "A0001", "P000001", "Widget", "010.00",
   "0002", "SHIPPED", "2020-01-01 00:00:00", "2020-01-01", "2020-01-02",
   "2020-01-05"⟩

/-- Sample record: same business key as `rec1`, changed quantity. -/
def rec1b : TransactionRecord :=
  { rec1 with ProductQuantity := "0005" }

/-- Sample record: a different business key from `rec1`. -/
def rec2 : TransactionRecord :=
  { rec1 with Transaction_Id := "T00002" }

/-! ### Helper lemmas -/

theorem take_eq_range_filterMap (l : List Char) (n : Nat) :
    l.take n = (List.range n).filterMap (fun k => l[k]?) := by
  induction n with
  | zero => simp
  | succ m ih =>
    rw [List.take_succ, List.range_succ, List.filterMap_append, ih]
    cases h : l[m]? <;> simp [h]

theorem pySlice_eq_specSlice (s : String) (a b : Nat) :
    pySlice s a b = specSlice s a b := by
  unfold pySlice specSlice
  congr 1
  rw [take_eq_range_filterMap]
  simp [List.getElem?_drop]

theorem keyMatchb_eq_true_iff (j : Row) (r : TransactionRecord) :
    keyMatchb j r = true ↔ rowKey j = recKey r := by
  simp [keyMatchb, rowKey, recKey, Prod.mk.injEq, Bool.and_eq_true, and_assoc]

theorem filter_erase_of_false {α : Type _} [DecidableEq α] (p : α → Bool) (a : α)
    (hpa : p a = false) (l : List α) : (l.erase a).filter p = l.filter p := by
  induction l with
  | nil => rfl
  | cons b bs ih =>
    rw [List.erase_cons]
    by_cases hba : b = a
    · subst hba
      simp [List.filter_cons, hpa]
    · have : (b == a) = false := by simp [hba]
      simp only [this, if_neg]
      simp only [Bool.false_eq_true, if_false, List.filter_cons, ih]

theorem Main_logic_nil_snapshot (lst : List TransactionRecord) (st : List Row) :
    Main_logic lst [] st = baselineInsert lst st := by
  induction lst generalizing st with
  | nil => rfl
  | cons r rs ih =>
    show List.foldl (Main_logic_step []) (Main_logic_step [] st r) rs = _
    rw [show Main_logic_step [] st r = Insert r st from rfl]
    exact ih (Insert r st)

theorem baselineInsert_append (lst : List TransactionRecord) (st : List Row) :
    ∃ ext, baselineInsert lst st = st ++ ext := by
  induction lst generalizing st with
  | nil => exact ⟨[], by simp [baselineInsert]⟩
  | cons r rs ih =>
    obtain ⟨ext, hext⟩ := ih (Insert r st)
    exact ⟨⟨maxSeq st + 1, r, "Y"⟩ :: ext, by
      show baselineInsert rs (Insert r st) = _
      rw [hext, Insert, List.append_assoc]
      rfl⟩

/-! ### The claims -/

/-- C5: the Record Decoder is pure slicing — for every input, `Usable`
produces per line exactly the record whose fields are the contiguous
byte-offset slices listed in §4.1, with no trimming, validation or type
conversion. -/
theorem C5_record_decoder_slices (data : List String) :
    Usable data = data.map (fun line =>
      { Transaction_Id := specSlice line 0 6
        Customer_Id := specSlice line 6 12
        Customer_Name := specSlice line 12 32
        Customer_Addr_Id := specSlice line 32 37
        Product_Id := specSlice line 37 44
        Product_Nm := specSlice line 44 74
        ProductPrice := specSlice line 74 80
        ProductQuantity := specSlice line 80 84
        Status := specSlice line 84 96
        Transaction_time_stamp := specSlice line 96 116
        Ordered_Date := specSlice line 116 127
        Shipment_Date := specSlice line 127 138
        Delivered_Date := specSlice line 138 149 }) := by
  unfold Usable
  congr 1
  funext line
  simp only [Usable_record, pySlice_eq_specSlice]

/-- C4 counterexample: the loader is `data.remove('')`, which fails on an
input with no blank line at all (Python raises `ValueError`), and removes
only the first blank line when several are present — contradicting the
claim that it succeeds on zero blank lines and drops all blank lines. -/
theorem C4_counterexample :
    Execute ["abc"] = none ∧ Execute ["a", "", "", "b"] = some ["a", "", "b"] := by
  decide

/-- C4 amended: the Batch Loader removes exactly the first blank line:
it fails when the input contains no blank line, and on success the result
has one line fewer, exactly one blank line fewer, and the non-blank lines
unchanged in their relative order. -/
theorem C4_blank_line_removal (lines : List String) :
    ("" ∉ lines → Execute lines = none) ∧
    ∀ out, Execute lines = some out →
      out.length + 1 = lines.length ∧
      out.count "" + 1 = lines.count "" ∧
      out.filter (fun s => !(s == "")) = lines.filter (fun s => !(s == "")) := by
  constructor
  · intro h
    simp [Execute, h]
  · intro out hout
    by_cases hm : "" ∈ lines
    · rw [Execute, if_pos hm] at hout
      obtain rfl : lines.erase "" = out := by injection hout
      have hlen : 0 < lines.length := List.length_pos.mpr (List.ne_nil_of_mem hm)
      have hcount : 0 < lines.count "" := List.count_pos_iff.mpr hm
      refine ⟨?_, ?_, ?_⟩
      · rw [List.length_erase_of_mem hm]
        omega
      · rw [List.count_erase_self]
        omega
      · exact filter_erase_of_false _ "" (by simp) lines
    · rw [Execute, if_neg hm] at hout
      exact absurd hout (by simp)

/-- Witness for C4: on the two-line input `["x", ""]` the loader succeeds
with `["x"]`, and the amended length/count/order facts hold there. -/
theorem C4_blank_line_removal_witness :
    (["x"] : List String).length + 1 = (["x", ""] : List String).length ∧
    List.count "" ["x"] + 1 = List.count "" ["x", ""] ∧
    List.filter (fun s => !(s == "")) ["x"] = List.filter (fun s => !(s == "")) ["x", ""] :=
  (C4_blank_line_removal ["x", ""]).2 ["x"] (by decide)

/-- C6: on an empty ledger the baseline fast path (insert every record,
no lookup, no retire) produces exactly the state that the general
snapshot-and-match rule produces against the (empty) snapshot. -/
theorem C6_baseline_refines_general (lst : List TransactionRecord) :
    baselineInsert lst ([] : List Row) = Main_logic lst (Final_data []) [] :=
  (Main_logic_nil_snapshot lst []).symm

/-- C2 counterexample: the snapshot `Final_data` is `SELECT *` without an
active filter, so it contains retired rows, and a match is declared for a
record whose key has only a retired row — while the claim says the
snapshot holds active rows only and a match requires an active row. -/
theorem C2_counterexample :
    (⟨1, rec1, "N"⟩ : Row) ∈ Final_data [⟨1, rec1, "N"⟩] ∧
    ((Final_data [⟨1, rec1, "N"⟩]).find? (fun j => keyMatchb j rec1)).isSome = true ∧
    ¬ ∃ j ∈ Final_data [⟨1, rec1, "N"⟩], rowKey j = recKey rec1 ∧ j.ACTIVE_IND = "Y" := by
  refine ⟨by decide, by decide, ?_⟩
  decide

/-- C2 amended: the start-of-batch snapshot is the whole table
(`Final_data` applies no `ACTIVE_IND` filter), and a match is declared for
an incoming record exactly when any row — active or retired — with the
same business key exists in the snapshot. -/
theorem C2_match_iff_any_row (st : List Row) (r : TransactionRecord) :
    ((Final_data st).find? (fun j => keyMatchb j r)).isSome = true ↔
    ∃ j ∈ st, rowKey j = recKey r := by
  simp only [Final_data, List.find?_isSome, keyMatchb_eq_true_iff]

/-- C10: the baseline path is selected exactly when the file name is the
literal `'Day1.txt'`, regardless of the ledger's contents: under that name
every pre-existing row is left untouched (no lookup, no retirement) even
on a non-empty ledger, and under any other name the batch goes through the
snapshot-and-match logic even on an empty ledger. -/
theorem C10_day1_literal_dispatch (file_name : String) (lst : List TransactionRecord)
    (st : List Row) :
    (file_name = "Day1.txt" →
      processBatch file_name lst st = baselineInsert lst st ∧
      (processBatch file_name lst st).take st.length = st) ∧
    (file_name ≠ "Day1.txt" →
      processBatch file_name lst st = Main_logic lst (Final_data st) st) := by
  constructor
  · intro h
    have hdef : processBatch file_name lst st = baselineInsert lst st := by
      rw [processBatch, if_pos h]
    refine ⟨hdef, ?_⟩
    obtain ⟨ext, hext⟩ := baselineInsert_append lst st
    rw [hdef, hext, List.take_left]
  · intro h
    rw [processBatch, if_neg h]

/-- Witness for C10: concrete dispatches for the names `Day1.txt` and
`Day2.txt` on a non-empty ledger. -/
theorem C10_day1_literal_dispatch_witness :
    processBatch "Day1.txt" [rec1b] [⟨1, rec1, "Y"⟩] = baselineInsert [rec1b] [⟨1, rec1, "Y"⟩] ∧
    processBatch "Day2.txt" [rec1b] [⟨1, rec1, "Y"⟩] =
      Main_logic [rec1b] (Final_data [⟨1, rec1, "Y"⟩]) [⟨1, rec1, "Y"⟩] :=
  ⟨((C10_day1_literal_dispatch "Day1.txt" [rec1b] [⟨1, rec1, "Y"⟩]).1 rfl).1,
   (C10_day1_literal_dispatch "Day2.txt" [rec1b] [⟨1, rec1, "Y"⟩]).2 (by decide)⟩

/-- C1 counterexample: a batch of two records with the business key of
`rec1`, against a ledger holding exactly one pre-existing active row for
that key.  The claim predicts two active rows for the key after the
batch; the code leaves exactly one, because the retire `UPDATE` works by
business key and so also retires the row inserted for the first record of
the batch. -/
theorem C1_counterexample :
    (Main_logic [rec1, rec1b] (Final_data [⟨1, rec1, "Y"⟩]) [⟨1, rec1, "Y"⟩]).map
      Row.ACTIVE_IND = ["N", "N", "Y"] ∧
    activeForKey (recKey rec1)
      (Main_logic [rec1, rec1b] (Final_data [⟨1, rec1, "Y"⟩]) [⟨1, rec1, "Y"⟩]) = 1 ∧
    activeForKey (recKey rec1)
      (Main_logic [rec1, rec1b] (Final_data [⟨1, rec1, "Y"⟩]) [⟨1, rec1, "Y"⟩]) ≠ 2 := by
  refine ⟨by decide, by decide, by decide⟩

/-- C1 amended: for a batch of two records sharing one business key,
against a ledger holding exactly one pre-existing active row for that key:
the original row is retired, two new rows are created, but the key-level
retire `UPDATE` run for the second record also retires the row created for
the first record, so only the last new row is active and the active-row
count for the key is 1, not 2. -/
theorem C1_duplicate_key_batch (j : Row) (a b : TransactionRecord)
    (hja : rowKey j = recKey a) (hba : recKey b = recKey a)
    (_hact : j.ACTIVE_IND = "Y") :
    Main_logic [a, b] (Final_data [j]) [j] =
      [⟨j.Sequence, j.record, "N"⟩, ⟨j.Sequence + 1, a, "N"⟩, ⟨j.Sequence + 2, b, "Y"⟩] ∧
    activeForKey (recKey a) (Main_logic [a, b] (Final_data [j]) [j]) = 1 := by
  have ha : keyMatchb j a = true := (keyMatchb_eq_true_iff j a).mpr hja
  have hb : keyMatchb j b = true := (keyMatchb_eq_true_iff j b).mpr (hja.trans hba.symm)
  obtain ⟨hj1, hj2, hj3⟩ :
      j.record.Transaction_Id = a.Transaction_Id ∧
      j.record.Customer_Id = a.Customer_Id ∧
      j.record.Product_Id = a.Product_Id := by
    simpa [rowKey, recKey, Prod.mk.injEq] using hja
  obtain ⟨hb1, hb2, hb3⟩ :
      b.Transaction_Id = a.Transaction_Id ∧
      b.Customer_Id = a.Customer_Id ∧
      b.Product_Id = a.Product_Id := by
    simpa [recKey, Prod.mk.injEq] using hba
  have hmax : max j.Sequence (j.Sequence + 1) = j.Sequence + 1 := by
    omega
  have hfa : List.find? (fun j0 => keyMatchb j0 a) [j] = some j := by
    simp [List.find?, ha]
  have hfb : List.find? (fun j0 => keyMatchb j0 b) [j] = some j := by
    simp [List.find?, hb]
  have h1 : Main_logic_step [j] [j] a =
      [⟨j.Sequence, j.record, "N"⟩, ⟨j.Sequence + 1, a, "Y"⟩] := by
    rw [Main_logic_step, hfa]
    simp [retireByKey, Insert, maxSeq]
  have h2 : Main_logic_step [j] [⟨j.Sequence, j.record, "N"⟩, ⟨j.Sequence + 1, a, "Y"⟩] b =
      [⟨j.Sequence, j.record, "N"⟩, ⟨j.Sequence + 1, a, "N"⟩, ⟨j.Sequence + 2, b, "Y"⟩] := by
    rw [Main_logic_step, hfb]
    simp [retireByKey, Insert, maxSeq, rowKey, hj1, hj2, hj3, hb1, hb2, hb3, hmax]
  have hmain : Main_logic [a, b] (Final_data [j]) [j] =
      [⟨j.Sequence, j.record, "N"⟩, ⟨j.Sequence + 1, a, "N"⟩, ⟨j.Sequence + 2, b, "Y"⟩] := by
    show Main_logic_step [j] (Main_logic_step [j] [j] a) b = _
    rw [h1, h2]
  refine ⟨hmain, ?_⟩
  rw [hmain]
  simp [activeForKey, List.filter, rowKey, recKey, hj1, hj2, hj3, hb1, hb2, hb3]

/-- Witness for C1 amended: the concrete two-record batch of
`C1_counterexample`, with the pre-existing row at sequence 5. -/
theorem C1_duplicate_key_batch_witness :
    Main_logic [rec1, rec1b] (Final_data [⟨5, rec1, "Y"⟩]) [⟨5, rec1, "Y"⟩] =
      [⟨5, rec1, "N"⟩, ⟨6, rec1, "N"⟩, ⟨7, rec1b, "Y"⟩] ∧
    activeForKey (recKey rec1)
      (Main_logic [rec1, rec1b] (Final_data [⟨5, rec1, "Y"⟩]) [⟨5, rec1, "Y"⟩]) = 1 :=
  C1_duplicate_key_batch ⟨5, rec1, "Y"⟩ rec1 rec1b (by decide) (by decide) rfl

/-- C3 counterexample: two active rows share one business key (such states
arise from duplicate keys in a baseline load); a matching record retires
the first of them, and the claim says the other row keeps its active flag
— but the `UPDATE` filters by business key, so the second row (sequence 2)
is flipped to `'N'` as well. -/
theorem C3_counterexample :
    (Main_logic [rec1] (Final_data [⟨1, rec1, "Y"⟩, ⟨2, rec1b, "Y"⟩])
        [⟨1, rec1, "Y"⟩, ⟨2, rec1b, "Y"⟩]).map (fun row => (row.Sequence, row.ACTIVE_IND)) =
      [(1, "N"), (2, "N"), (3, "Y")] ∧
    (⟨2, rec1b, "Y"⟩ : Row).ACTIVE_IND = "Y" := by
  refine ⟨by decide, rfl⟩

/-- C3 amended: the retirement step (`retireByKey`, the embedding of the
`UPDATE … WHERE` the three key columns) flips the active flag of every row
whose business key equals the matched row's key — not only the single
matched row — and changes nothing else: `Sequence` and the record columns
of every row are untouched, and any row with a different business key is
completely unchanged. -/
theorem C3_retirement_frame (k : String × String × String) (st : List Row) :
    (retireByKey k st).map Row.Sequence = st.map Row.Sequence ∧
    (retireByKey k st).map Row.record = st.map Row.record ∧
    ∀ (i : Nat) (row : Row), st[i]? = some row →
      (rowKey row = k → (retireByKey k st)[i]? = some ⟨row.Sequence, row.record, "N"⟩) ∧
      (rowKey row ≠ k → (retireByKey k st)[i]? = some row) := by
  refine ⟨?_, ?_, ?_⟩
  · rw [retireByKey, List.map_map]
    apply List.map_congr_left
    intro row _
    by_cases h : rowKey row = k <;> simp [h, Function.comp]
  · rw [retireByKey, List.map_map]
    apply List.map_congr_left
    intro row _
    by_cases h : rowKey row = k <;> simp [h, Function.comp]
  · intro i row hrow
    constructor <;> intro hk <;> simp [retireByKey, List.getElem?_map, hrow, hk]

/-- Witness for C3 amended: retiring key `(T00001, C00001, P000001)` in a
two-row table flips the row with that key at index 0 and leaves the
row with a different key at index 1 unchanged. -/
theorem C3_retirement_frame_witness :
    (retireByKey (recKey rec1) [⟨1, rec1, "Y"⟩, ⟨2, rec2, "Y"⟩])[0]? =
      some ⟨1, rec1, "N"⟩ ∧
    (retireByKey (recKey rec1) [⟨1, rec1, "Y"⟩, ⟨2, rec2, "Y"⟩])[1]? =
      some ⟨2, rec2, "Y"⟩ :=
  ⟨((C3_retirement_frame (recKey rec1) [⟨1, rec1, "Y"⟩, ⟨2, rec2, "Y"⟩]).2.2 0
      ⟨1, rec1, "Y"⟩ rfl).1 (by decide),
   ((C3_retirement_frame (recKey rec1) [⟨1, rec1, "Y"⟩, ⟨2, rec2, "Y"⟩]).2.2 1
      ⟨2, rec2, "Y"⟩ rfl).2 (by decide)⟩

/-! ### Sequence-number and row-preservation machinery (C7, C8, C9) -/

theorem mem_le_maxSeq {row : Row} {st : List Row} (h : row ∈ st) :
    row.Sequence ≤ maxSeq st := by
  induction st with
  | nil => cases h
  | cons x xs ih =>
    simp only [maxSeq, List.foldr_cons] at *
    rcases List.mem_cons.mp h with rfl | hmem
    · exact Nat.le_max_left _ _
    · exact le_trans (ih hmem) (Nat.le_max_right _ _)

theorem seq_retireByKey (k : String × String × String) (st : List Row) :
    (retireByKey k st).map Row.Sequence = st.map Row.Sequence := by
  rw [retireByKey, List.map_map]
  apply List.map_congr_left
  intro row _
  by_cases h : rowKey row = k <;> simp [h, Function.comp]

theorem record_retireByKey (k : String × String × String) (st : List Row) :
    (retireByKey k st).map Row.record = st.map Row.record := by
  rw [retireByKey, List.map_map]
  apply List.map_congr_left
  intro row _
  by_cases h : rowKey row = k <;> simp [h, Function.comp]

theorem maxSeq_eq_map (st : List Row) :
    maxSeq st = (st.map Row.Sequence).foldr max 0 := by
  rw [maxSeq, List.foldr_map]

theorem maxSeq_retireByKey (k : String × String × String) (st : List Row) :
    maxSeq (retireByKey k st) = maxSeq st := by
  rw [maxSeq_eq_map, maxSeq_eq_map, seq_retireByKey]

theorem insert_seq_pairwise (r : TransactionRecord) (st : List Row)
    (h : (st.map Row.Sequence).Pairwise (· < ·)) :
    ((Insert r st).map Row.Sequence).Pairwise (· < ·) := by
  rw [Insert, List.map_append, List.pairwise_append]
  refine ⟨h, List.pairwise_singleton _ _, ?_⟩
  intro s hs t ht
  simp only [List.map_cons, List.map_nil, List.mem_singleton] at ht
  subst ht
  obtain ⟨row, hrow, rfl⟩ := List.mem_map.mp hs
  exact Nat.lt_succ_of_le (mem_le_maxSeq hrow)

theorem step_seq_pairwise (fd st : List Row) (r : TransactionRecord)
    (h : (st.map Row.Sequence).Pairwise (· < ·)) :
    ((Main_logic_step fd st r).map Row.Sequence).Pairwise (· < ·) := by
  rw [Main_logic_step]
  cases hf : fd.find? (fun j => keyMatchb j r) with
  | none => exact insert_seq_pairwise r st h
  | some j =>
    apply insert_seq_pairwise
    rw [seq_retireByKey]
    exact h

theorem Main_logic_seq_pairwise (lst : List TransactionRecord) (fd : List Row) :
    ∀ st : List Row, (st.map Row.Sequence).Pairwise (· < ·) →
      ((Main_logic lst fd st).map Row.Sequence).Pairwise (· < ·) := by
  induction lst with
  | nil => exact fun st h => h
  | cons r rs ih =>
    intro st h
    exact ih (Main_logic_step fd st r) (step_seq_pairwise fd st r h)

theorem baselineInsert_seq_pairwise (lst : List TransactionRecord) :
    ∀ st : List Row, (st.map Row.Sequence).Pairwise (· < ·) →
      ((baselineInsert lst st).map Row.Sequence).Pairwise (· < ·) := by
  induction lst with
  | nil => exact fun st h => h
  | cons r rs ih =>
    intro st h
    exact ih (Insert r st) (insert_seq_pairwise r st h)

theorem processBatch_seq_pairwise (file_name : String) (lst : List TransactionRecord)
    (st : List Row) (h : (st.map Row.Sequence).Pairwise (· < ·)) :
    ((processBatch file_name lst st).map Row.Sequence).Pairwise (· < ·) := by
  rw [processBatch]
  by_cases hn : file_name = "Day1.txt"
  · rw [if_pos hn]
    exact baselineInsert_seq_pairwise lst st h
  · rw [if_neg hn]
    exact Main_logic_seq_pairwise lst (Final_data st) st h

theorem runBatches_seq_pairwise (days : List (String × List TransactionRecord)) :
    ∀ st : List Row, (st.map Row.Sequence).Pairwise (· < ·) →
      ((runBatches days st).map Row.Sequence).Pairwise (· < ·) := by
  induction days with
  | nil => exact fun st h => h
  | cons d ds ih =>
    intro st h
    exact ih (processBatch d.1 d.2 st) (processBatch_seq_pairwise d.1 d.2 st h)

theorem rowsPreserved_trans {st1 st2 st3 : List Row}
    (h12 : rowsPreserved st1 st2) (h23 : rowsPreserved st2 st3) :
    rowsPreserved st1 st3 := by
  refine ⟨le_trans h12.1 h23.1, ?_⟩
  intro row hrow
  obtain ⟨row2, hrow2, hseq2, hrec2⟩ := h12.2 row hrow
  obtain ⟨row3, hrow3, hseq3, hrec3⟩ := h23.2 row2 hrow2
  exact ⟨row3, hrow3, hseq3.trans hseq2, hrec3.trans hrec2⟩

theorem rowsPreserved_insert (r : TransactionRecord) (st : List Row) :
    rowsPreserved st (Insert r st) := by
  refine ⟨by simp [Insert], ?_⟩
  intro row hrow
  exact ⟨row, by simp [Insert, hrow], rfl, rfl⟩

theorem rowsPreserved_retireByKey (k : String × String × String) (st : List Row) :
    rowsPreserved st (retireByKey k st) := by
  refine ⟨by simp [retireByKey], ?_⟩
  intro row hrow
  refine ⟨if rowKey row = k then { row with ACTIVE_IND := "N" } else row,
    List.mem_map_of_mem _ hrow, ?_, ?_⟩ <;> by_cases h : rowKey row = k <;> simp [h]

theorem rowsPreserved_step (fd st : List Row) (r : TransactionRecord) :
    rowsPreserved st (Main_logic_step fd st r) := by
  rw [Main_logic_step]
  cases hf : fd.find? (fun j => keyMatchb j r) with
  | none => exact rowsPreserved_insert r st
  | some j =>
    exact rowsPreserved_trans (rowsPreserved_retireByKey (rowKey j) st)
      (rowsPreserved_insert r (retireByKey (rowKey j) st))

theorem rowsPreserved_Main_logic (lst : List TransactionRecord) (fd : List Row) :
    ∀ st : List Row, rowsPreserved st (Main_logic lst fd st) := by
  induction lst with
  | nil => exact fun st => ⟨le_refl _, fun row hrow => ⟨row, hrow, rfl, rfl⟩⟩
  | cons r rs ih =>
    intro st
    exact rowsPreserved_trans (rowsPreserved_step fd st r) (ih (Main_logic_step fd st r))

theorem rowsPreserved_baselineInsert (lst : List TransactionRecord) :
    ∀ st : List Row, rowsPreserved st (baselineInsert lst st) := by
  induction lst with
  | nil => exact fun st => ⟨le_refl _, fun row hrow => ⟨row, hrow, rfl, rfl⟩⟩
  | cons r rs ih =>
    intro st
    exact rowsPreserved_trans (rowsPreserved_insert r st) (ih (Insert r st))

theorem rowsPreserved_processBatch (file_name : String) (lst : List TransactionRecord)
    (st : List Row) : rowsPreserved st (processBatch file_name lst st) := by
  rw [processBatch]
  by_cases hn : file_name = "Day1.txt"
  · rw [if_pos hn]
    exact rowsPreserved_baselineInsert lst st
  · rw [if_neg hn]
    exact rowsPreserved_Main_logic lst (Final_data st) st

theorem Main_logic_step_length (fd st : List Row) (r : TransactionRecord) :
    (Main_logic_step fd st r).length = st.length + 1 := by
  rw [Main_logic_step]
  cases hf : fd.find? (fun j => keyMatchb j r) with
  | none => simp [Insert]
  | some j => simp [Insert, retireByKey]

theorem Main_logic_length (lst : List TransactionRecord) (fd : List Row) :
    ∀ st : List Row, (Main_logic lst fd st).length = st.length + lst.length := by
  induction lst with
  | nil => intro st; rfl
  | cons r rs ih =>
    intro st
    show (Main_logic rs fd (Main_logic_step fd st r)).length = _
    rw [ih (Main_logic_step fd st r), Main_logic_step_length]
    simp [Nat.add_assoc, Nat.add_comm 1 rs.length]

/-- C7: across any sequence of batch runs starting from the freshly created
(empty) table, the sequence numbers of the rows, in insertion order, are
strictly increasing, and no sequence number is ever reused. -/
theorem C7_sequence_numbers_monotone (days : List (String × List TransactionRecord)) :
    ((runBatches days []).map Row.Sequence).Pairwise (· < ·) ∧
    ((runBatches days []).map Row.Sequence).Nodup := by
  have h := runBatches_seq_pairwise days [] (by simp)
  exact ⟨h, h.imp Nat.ne_of_lt⟩

/-- C8: batch processing never physically deletes a row — for any table
state and any batch run, the row count does not decrease and every
previously inserted row is still present, identified by its sequence
number and carrying its original record columns. -/
theorem C8_no_row_deleted (st : List Row) (file_name : String)
    (lst : List TransactionRecord) :
    st.length ≤ (processBatch file_name lst st).length ∧
    ∀ row ∈ st, ∃ row2 ∈ processBatch file_name lst st,
      row2.Sequence = row.Sequence ∧ row2.record = row.record :=
  rowsPreserved_processBatch file_name lst st

/-- Witness for C8: a one-row ledger processed with a matching Day-2 batch
still holds a row with sequence 1 carrying `rec1`, and at least one row. -/
theorem C8_no_row_deleted_witness :
    1 ≤ (processBatch "Day2.txt" [rec1b] [⟨1, rec1, "Y"⟩]).length ∧
    ∃ row2 ∈ processBatch "Day2.txt" [rec1b] [⟨1, rec1, "Y"⟩],
      row2.Sequence = 1 ∧ row2.record = rec1 :=
  ⟨(C8_no_row_deleted [⟨1, rec1, "Y"⟩] "Day2.txt" [rec1b]).1,
   (C8_no_row_deleted [⟨1, rec1, "Y"⟩] "Day2.txt" [rec1b]).2 ⟨1, rec1, "Y"⟩ (by decide)⟩

/-- C9: re-applying a non-empty batch all of whose business keys already
have ledger rows is not a no-op: every record is declared a match (so its
processing issues a retire `UPDATE` followed by an insert), and the total
row count strictly increases — by exactly one new row per record. -/
theorem C9_reapply_not_noop (st : List Row) (lst : List TransactionRecord)
    (hne : lst ≠ [])
    (hkeys : ∀ r ∈ lst, ∃ j ∈ Final_data st, rowKey j = recKey r) :
    (Main_logic lst (Final_data st) st).length = st.length + lst.length ∧
    st.length < (Main_logic lst (Final_data st) st).length ∧
    ∀ r ∈ lst, ((Final_data st).find? (fun j => keyMatchb j r)).isSome = true := by
  have hlen := Main_logic_length lst (Final_data st) st
  have hpos : 0 < lst.length := List.length_pos.mpr hne
  refine ⟨hlen, by omega, ?_⟩
  intro r hr
  rw [List.find?_isSome]
  obtain ⟨j, hj, hkey⟩ := hkeys r hr
  exact ⟨j, hj, (keyMatchb_eq_true_iff j r).mpr hkey⟩

/-- Witness for C9: re-applying a one-record batch whose key already has a
row strictly grows the one-row ledger. -/
theorem C9_reapply_not_noop_witness :
    1 < (Main_logic [rec1b] (Final_data [⟨1, rec1, "Y"⟩]) [⟨1, rec1, "Y"⟩]).length :=
  (C9_reapply_not_noop [⟨1, rec1, "Y"⟩] [rec1b] (by decide) (by decide)).2.1

end OnlineShopping
